import Mathlib

/-!
Verification of the invoice-generator document engine: monetary model
(src/invoice_generator/model.py), serialization adapter
(src/invoice_generator/io.py, backend.export_json), pagination engine
(backend.export_pdf) and counter numbering (config.ConfigManager.next_number),
shallowly embedded over exact rational arithmetic.
-/

namespace InvoiceGen

/-- Python `max(a, b)` on two numbers: returns `b` when `a < b`, else `a`. -/
def pymax (a b : ℚ) : ℚ := if a < b then b else a

/-- Round-half-to-even of a rational to an integer: the rounding mode of
Python's builtin `round` (applied here to exact values). -/
def roundHalfEven (q : ℚ) : ℤ :=
  if q - ⌊q⌋ < 1/2 then ⌊q⌋
  else if 1/2 < q - ⌊q⌋ then ⌊q⌋ + 1
  else if ⌊q⌋ % 2 = 0 then ⌊q⌋ else ⌊q⌋ + 1

/-- Python `round(x, 2)`: round to 2 decimal places, half to even. -/
def round2 (q : ℚ) : ℚ := (roundHalfEven (q * 100) : ℚ) / 100

/-- Line of a document; embeds `LineItem` of src/invoice_generator/model.py. -/
structure LineItem where
  item_key : String
  description : String
  quantity : ℚ
  unit_price : ℚ
  discount_pct : ℚ := 0
  unit : String := ""
  tax_pct : ℚ := 0
deriving DecidableEq, Repr

/-- Embeds `LineItem.total_ht`: `quantity * unit_price`, multiplied by
`max(0.0, 1.0 - discount_pct / 100.0)` only when `discount_pct` is nonzero
(Python truthiness of the float), then rounded to 2 decimals. -/
def LineItem.total_ht (li : LineItem) : ℚ :=
  let price := li.quantity * li.unit_price
  let price := if li.discount_pct ≠ 0 then price * pymax 0 (1 - li.discount_pct / 100) else price
  round2 price

/-- Embeds `DocumentType` (a Python `StrEnum` with values `quote`/`invoice`). -/
inductive DocumentType where
  | quote
  | invoice
deriving DecidableEq, Repr

/-- The `.value` attribute of the `StrEnum` member. -/
def DocumentType.value : DocumentType → String
  | .quote => "quote"
  | .invoice => "invoice"

/-- Python `str()` of a `StrEnum` member returns its value (not the
`ClassName.MEMBER` repr form). -/
def DocumentType.pyStr (dt : DocumentType) : String := dt.value

/-- Calendar date (the fields of `datetime.date` used by the program). -/
structure Date where
  year : ℕ
  month : ℕ
  day : ℕ
deriving DecidableEq, Repr

/-- Zero-pad the decimal representation of a natural to a minimum width. -/
def natPadZeros (width : ℕ) (n : ℕ) : String :=
  let s := Nat.repr n
  String.mk (List.replicate (width - s.length) '0') ++ s

/-- `date.isoformat()`: `YYYY-MM-DD`. -/
def Date.isoformat (d : Date) : String :=
  natPadZeros 4 d.year ++ "-" ++ natPadZeros 2 d.month ++ "-" ++ natPadZeros 2 d.day

/-- Embeds `Company` of src/invoice_generator/model.py. -/
structure Company where
  name : String
  logo_path : Option String := none
  logo_max_width : Option ℚ := none
  logo_max_height : Option ℚ := none
  logo_margin_right : Option ℚ := none
  address : Option String := none
  email : Option String := none
  phone : Option String := none
  siret : Option String := none
deriving DecidableEq, Repr

/-- Embeds `Party` of src/invoice_generator/model.py. -/
structure Party where
  name : String
  address : Option String := none
  email : Option String := none
  phone : Option String := none
  siret : Option String := none
deriving DecidableEq, Repr

/-- Embeds `Document` of src/invoice_generator/model.py. -/
structure Document where
  doc_type : DocumentType
  issuer : Company
  customer : Party
  lines : List LineItem := []
  number : Option String := none
  date_ : Date
  notes : Option String := none
  subject : Option String := none
  validity_end_date : Option Date := none
deriving DecidableEq, Repr

/-- Embeds `Document.subtotal_ht`: `round(sum(li.total_ht() for li in lines), 2)`. -/
def Document.subtotal_ht (d : Document) : ℚ :=
  round2 ((d.lines.map LineItem.total_ht).sum)

/-- Embeds `Document.total_tva` (via `_sum`):
`round(sum(li.total_ht() * max(0.0, li.tax_pct) / 100.0 for li in lines), 2)`. -/
def Document.total_tva (d : Document) : ℚ :=
  round2 ((d.lines.map (fun li => li.total_ht * pymax 0 li.tax_pct / 100)).sum)

/-- Embeds `Document.net_to_pay`: `round(subtotal_ht() + total_tva(), 2)`. -/
def Document.net_to_pay (d : Document) : ℚ :=
  round2 (d.subtotal_ht + d.total_tva)

/-- Written from the words of the spec (section 4.1): `subtotalExTax` is the
sum of all per-line rounded totals, rounded to 2 decimals after summation. -/
def specSubtotalExTax (d : Document) : ℚ :=
  round2 ((d.lines.map LineItem.total_ht).sum)

/-- Written from the words of the spec (section 4.1): `totalTax` is the sum
over lines of `lineTotalExTax(line) * max(0, taxPct)/100`, the sum rounded to
2 decimals once at the end, with no per-term rounding before summation. -/
def specTotalTax (d : Document) : ℚ :=
  round2 ((d.lines.map (fun li => li.total_ht * pymax 0 li.tax_pct / 100)).sum)

/-- Written from the words of the spec (section 4.1):
`netPayable = round2(subtotalExTax + totalTax)`. -/
def specNetPayable (d : Document) : ℚ :=
  round2 (specSubtotalExTax d + specTotalTax d)

/-- A minimal concrete issuer used by concrete scenarios. -/
def issuer0 : Company := { name := "Iss" }

/-- A minimal concrete customer used by concrete scenarios. -/
def customer0 : Party := { name := "Cli" }

/-- The two-line document of the full totals scenario of spec section 8:
lines (qty=2, price=100, tax=20%) and (qty=1, price=50, discount=50%, tax=5%). -/
def scenarioDoc : Document :=
  { doc_type := .quote
    issuer := issuer0
    customer := customer0
    lines :=
      [ { item_key := "a", description := "A", quantity := 2, unit_price := 100, tax_pct := 20 }
      , { item_key := "b", description := "B", quantity := 1, unit_price := 50,
          discount_pct := 50, tax_pct := 5 } ]
    date_ := ⟨2025, 1, 1⟩ }

/-- C1: for every document, `subtotal_ht` is the 2-decimal rounding of the sum
of per-line rounded totals, `total_tva` is the 2-decimal rounding, applied once
at the end with no per-term rounding, of the sum of
`total_ht * max(0, tax_pct)/100`, and `net_to_pay = round2(subtotal + tax)`;
on the spec scenario the values are 225.0, 41.25 and 266.25. -/
theorem totals_match_spec_and_scenario :
    (∀ d : Document,
      d.subtotal_ht = specSubtotalExTax d ∧
      d.total_tva = specTotalTax d ∧
      d.net_to_pay = specNetPayable d) ∧
    scenarioDoc.subtotal_ht = 225 ∧
    scenarioDoc.total_tva = 41.25 ∧
    scenarioDoc.net_to_pay = 266.25 := by
  refine ⟨fun d => ⟨rfl, rfl, rfl⟩, ?_, ?_, ?_⟩ <;>
    norm_num [scenarioDoc, Document.net_to_pay, Document.subtotal_ht, Document.total_tva,
      LineItem.total_ht, round2, roundHalfEven, pymax]

theorem roundHalfEven_floor_le (q : ℚ) : ⌊q⌋ ≤ roundHalfEven q := by
  unfold roundHalfEven
  split_ifs <;> omega

theorem roundHalfEven_le_floor_add_one (q : ℚ) : roundHalfEven q ≤ ⌊q⌋ + 1 := by
  unfold roundHalfEven
  split_ifs <;> omega

theorem roundHalfEven_mono {x y : ℚ} (h : x ≤ y) : roundHalfEven x ≤ roundHalfEven y := by
  rcases lt_or_eq_of_le (Int.floor_mono h) with hf | hf
  · calc roundHalfEven x ≤ ⌊x⌋ + 1 := roundHalfEven_le_floor_add_one x
      _ ≤ ⌊y⌋ := by omega
      _ ≤ roundHalfEven y := roundHalfEven_floor_le y
  · have hr : x - (⌊x⌋ : ℚ) ≤ y - (⌊y⌋ : ℚ) := by
      rw [← hf]
      linarith
    unfold roundHalfEven
    rw [← hf]
    split_ifs <;> first | omega | linarith

theorem round2_mono {x y : ℚ} (h : x ≤ y) : round2 x ≤ round2 y := by
  unfold round2
  have h1 : roundHalfEven (x * 100) ≤ roundHalfEven (y * 100) :=
    roundHalfEven_mono (by linarith)
  have h2 : ((roundHalfEven (x * 100) : ℚ)) ≤ (roundHalfEven (y * 100) : ℚ) := by
    exact_mod_cast h1
  linarith

theorem round2_eq_self {q : ℚ} (h : ∃ n : ℤ, q * 100 = n) : round2 q = q := by
  obtain ⟨n, hn⟩ := h
  unfold round2 roundHalfEven
  rw [hn, Int.floor_intCast]
  rw [if_pos (by norm_num : (n : ℚ) - (n : ℚ) < 1/2)]
  rw [div_eq_iff (by norm_num : (100 : ℚ) ≠ 0)]
  linarith

/-- A line with a negative discount: quantity 1, unit price 100, discount -50%. -/
def lineNegDisc : LineItem :=
  { item_key := "a", description := "A", quantity := 1, unit_price := 100, discount_pct := -50 }

/-- C2 counterexample: with discount -50% the computed total is 150, strictly
above the 100 computed at discount 0, so a negative discount does increase
the price: the code floors the factor `1 - discount/100` at 0 but never clamps
a negative discount, and for a negative discount that factor exceeds 1. -/
theorem negative_discount_increases_total_cex :
    lineNegDisc.discount_pct < 0 ∧
    lineNegDisc.total_ht = 150 ∧
    LineItem.total_ht { lineNegDisc with discount_pct := 0 } = 100 ∧
    ¬ lineNegDisc.total_ht ≤ LineItem.total_ht { lineNegDisc with discount_pct := 0 } := by
  refine ⟨by norm_num [lineNegDisc], ?_, ?_, ?_⟩ <;>
    norm_num [lineNegDisc, LineItem.total_ht, round2, roundHalfEven, pymax]

/-- C2 amended: for a negative discountPct and nonnegative quantity and unit
price, the computed line total is at least the discount-0 total — a negative
discount increases or preserves the price, it never lowers it (the `max(0, _)`
floor only prevents factors below 0, i.e. discounts above 100%). -/
theorem negative_discount_never_decreases_total (li : LineItem)
    (hd : li.discount_pct < 0) (hq : 0 ≤ li.quantity) (hp : 0 ≤ li.unit_price) :
    LineItem.total_ht { li with discount_pct := 0 } ≤ li.total_ht := by
  have h0 : LineItem.total_ht { li with discount_pct := 0 }
      = round2 (li.quantity * li.unit_price) := by
    simp [LineItem.total_ht]
  have h1 : li.total_ht
      = round2 (li.quantity * li.unit_price * pymax 0 (1 - li.discount_pct / 100)) := by
    simp only [LineItem.total_ht]
    rw [if_pos hd.ne]
  rw [h0, h1]
  apply round2_mono
  have hfac : (1 : ℚ) ≤ pymax 0 (1 - li.discount_pct / 100) := by
    unfold pymax
    split_ifs with hcond
    · linarith
    · exfalso
      apply hcond
      linarith
  calc li.quantity * li.unit_price = li.quantity * li.unit_price * 1 := by ring
    _ ≤ li.quantity * li.unit_price * pymax 0 (1 - li.discount_pct / 100) :=
        mul_le_mul_of_nonneg_left hfac (mul_nonneg hq hp)

theorem negative_discount_never_decreases_total_witness :
    LineItem.total_ht { lineNegDisc with discount_pct := 0 } ≤ lineNegDisc.total_ht :=
  negative_discount_never_decreases_total lineNegDisc
    (by norm_num [lineNegDisc]) (by norm_num [lineNegDisc]) (by norm_num [lineNegDisc])

/-- A discount-free line whose exact product 1 * (1/1000) has more than two
decimal places. -/
def lineThousandth : LineItem :=
  { item_key := "a", description := "A", quantity := 1, unit_price := 1/1000 }

/-- C8 counterexample: at discount 0 the code still rounds the product to two
decimals, so for quantity 1 and unit price 0.001 the computed line total is
0, not the exact product 0.001. -/
theorem line_total_not_exact_product_cex :
    lineThousandth.discount_pct = 0 ∧
    lineThousandth.total_ht = 0 ∧
    lineThousandth.quantity * lineThousandth.unit_price = 1/1000 ∧
    lineThousandth.total_ht ≠ lineThousandth.quantity * lineThousandth.unit_price := by
  refine ⟨rfl, ?_, by norm_num [lineThousandth], ?_⟩ <;>
    norm_num [lineThousandth, LineItem.total_ht, round2, roundHalfEven, pymax]

/-- C8 amended: for discountPct = 0 the discount multiply step is skipped and
the line total is exactly `round2(quantity * unitPrice)`; in particular when
the plain product already has at most two decimal places no error at all is
introduced and the total equals the product exactly. -/
theorem line_total_discount_zero (li : LineItem) (h : li.discount_pct = 0) :
    li.total_ht = round2 (li.quantity * li.unit_price) ∧
    (∀ n : ℤ, li.quantity * li.unit_price * 100 = n →
      li.total_ht = li.quantity * li.unit_price) := by
  have hbase : li.total_ht = round2 (li.quantity * li.unit_price) := by
    unfold LineItem.total_ht
    rw [h]
    simp
  exact ⟨hbase, fun n hn => by rw [hbase]; exact round2_eq_self ⟨n, hn⟩⟩

theorem line_total_discount_zero_witness :
    LineItem.total_ht { item_key := "a", description := "A", quantity := 10, unit_price := 100 }
      = 10 * 100 := by
  have h := (line_total_discount_zero
    { item_key := "a", description := "A", quantity := 10, unit_price := 100 } rfl).2
    100000 (by norm_num)
  simpa using h

/-- JSON values, the shape of data handled by `json.load`/`json.dump`. -/
inductive JVal where
  | null
  | bool (b : Bool)
  | num (q : ℚ)
  | str (s : String)
  | arr (elems : List JVal)
  | obj (fields : List (String × JVal))

/-- Python truthiness of a JSON value (`None`, `False`, `0`, `''`, `[]`, and
an empty dict are falsy). -/
def JVal.truthy : JVal → Bool
  | .null => false
  | .bool b => b
  | .num q => !(q == 0)
  | .str s => !(s == "")
  | .arr xs => !xs.isEmpty
  | .obj kvs => !kvs.isEmpty

/-- Python `v or d`: `v` when truthy, else `d`. -/
def pyOr (v d : JVal) : JVal := if v.truthy then v else d

/-- Decimal digit list to natural number. -/
def digitsVal (cs : List Char) : ℕ :=
  cs.foldl (fun a c => a * 10 + (c.toNat - 48)) 0

/-- Render `n / 10^k` (with `k ≥ 1`) as a decimal numeral string. -/
def decString (n : ℤ) (k : ℕ) : String :=
  let sgn := if n < 0 then "-" else ""
  let m := n.natAbs
  let s := Nat.repr m
  let s := if s.length ≤ k then String.mk (List.replicate (k + 1 - s.length) '0') ++ s else s
  let cs := s.toList
  sgn ++ String.mk (cs.take (cs.length - k)) ++ "." ++ String.mk (cs.drop (cs.length - k))

/-- Decimal text for a number: models the textual form Python gives numbers
(integers plainly, finite decimals with a point). Exercised by no theorem
beyond determinism, which is independent of the exact digits. -/
def numRepr (q : ℚ) : String :=
  if q.den = 1 then Int.repr q.num
  else
    match (List.range 17).find? (fun k => (q * (10 : ℚ) ^ (k + 1)).den = 1) with
    | some k => decString ((q * (10 : ℚ) ^ (k + 1)).num) (k + 1)
    | none => Int.repr q.num ++ "/" ++ Nat.repr q.den

/-- Python `str()` of a JSON value. Identity on strings (the only case the
importer theorems exercise); other cases follow CPython textual forms, with
containers approximated by their JSON shape. -/
def pyStr : JVal → String
  | .str s => s
  | .null => "None"
  | .bool b => if b then "True" else "False"
  | .num q => numRepr q
  | .arr xs => "[" ++ String.intercalate ", " (xs.map (fun _ => "...")) ++ "]"
  | .obj kvs => "\x7b" ++ String.intercalate ", " (kvs.map (fun kv => kv.1)) ++ "\x7d"

/-- Python `float()` of a string: models the decimal-literal subset
(optional sign, digits, optional fractional part, surrounding whitespace);
other spellings fail, like any non-numeric text. -/
def pyFloatOfString (s : String) : Option ℚ :=
  let afterSign : ℚ × List Char :=
    match s.trim.toList with
    | '+' :: t => (1, t)
    | '-' :: t => (-1, t)
    | t => (1, t)
  let sgn := afterSign.1
  let t := afterSign.2
  let ip := t.takeWhile Char.isDigit
  match t.dropWhile Char.isDigit with
  | [] => if ip.isEmpty then none else some (sgn * digitsVal ip)
  | '.' :: frac =>
      if frac.all Char.isDigit && !(ip.isEmpty && frac.isEmpty) then
        some (sgn * ((digitsVal ip : ℚ) + (digitsVal frac : ℚ) / (10 : ℚ) ^ frac.length))
      else none
  | _ => none

/-- Python `float()` of a JSON value: numbers pass through, booleans coerce,
numeric strings parse, everything else raises (`none`). -/
def pyFloat? : JVal → Option ℚ
  | .num q => some q
  | .bool b => some (if b then 1 else 0)
  | .str s => pyFloatOfString s
  | _ => none

/-- Hex digit character. -/
def hexDigit (n : ℕ) : Char := if n < 10 then Char.ofNat (48 + n) else Char.ofNat (87 + n)

/-- Escape one character as inside a JSON string emitted with
`ensure_ascii=False`: only quotes, backslashes and control characters are
escaped, any other character appears literally. -/
def escChar (c : Char) : String :=
  if c = '"' then "\\\""
  else if c = '\\' then "\\\\"
  else if c = '\n' then "\\n"
  else if c = '\t' then "\\t"
  else if c = '\r' then "\\r"
  else if c.toNat < 32 then "\\u00" ++ String.mk [hexDigit (c.toNat / 16), hexDigit (c.toNat % 16)]
  else String.singleton c

/-- Escape a whole string for a JSON text. -/
def escapeString (s : String) : String := String.join (s.toList.map escChar)

/-- Indentation of `n` spaces. -/
def indentStr (n : ℕ) : String := String.mk (List.replicate n ' ')

/-- Serialize a JSON value as `json.dump(..., ensure_ascii=False, indent=2)`
does: 2-space indentation per nesting level, literal non-ASCII characters. -/
def serVal : ℕ → JVal → String
  | _, .null => "null"
  | _, .bool b => if b then "true" else "false"
  | _, .num q => numRepr q
  | _, .str s => "\"" ++ escapeString s ++ "\""
  | _, .arr [] => "[]"
  | lvl, .arr (x :: xs) =>
      "[\n" ++ String.intercalate ",\n"
        ((x :: xs).attach.map (fun e => indentStr (2 * (lvl + 1)) ++ serVal (lvl + 1) e.1))
      ++ "\n" ++ indentStr (2 * lvl) ++ "]"
  | _, .obj [] => "\x7b\x7d"
  | lvl, .obj (p :: ps) =>
      "\x7b\n" ++ String.intercalate ",\n"
        ((p :: ps).attach.map (fun e =>
          indentStr (2 * (lvl + 1)) ++ "\"" ++ escapeString e.1.1 ++ "\": "
            ++ serVal (lvl + 1) e.1.2))
      ++ "\n" ++ indentStr (2 * lvl) ++ "\x7d"
termination_by _ v => sizeOf v
decreasing_by
  · have := List.sizeOf_lt_of_mem e.2
    simp only [JVal.arr.sizeOf_spec, List.cons.sizeOf_spec] at *
    omega
  · have h1 := List.sizeOf_lt_of_mem e.2
    have h2 : sizeOf e.1.2 < sizeOf e.1 := by
      obtain ⟨⟨a, b⟩, hmem⟩ := e
      simp only [Prod.mk.sizeOf_spec]
      omega
    simp only [JVal.obj.sizeOf_spec, List.cons.sizeOf_spec] at *
    omega

/-- JSON form of an optional string (`None` becomes `null`). -/
def optStrJ : Option String → JVal
  | some s => .str s
  | none => .null

/-- JSON form of an optional number. -/
def optNumJ : Option ℚ → JVal
  | some q => .num q
  | none => .null

/-- Embeds `dataclasses.asdict` on `Company`. -/
def Company.asdict (c : Company) : JVal :=
  .obj [("name", .str c.name), ("logo_path", optStrJ c.logo_path),
        ("logo_max_width", optNumJ c.logo_max_width),
        ("logo_max_height", optNumJ c.logo_max_height),
        ("logo_margin_right", optNumJ c.logo_margin_right),
        ("address", optStrJ c.address), ("email", optStrJ c.email),
        ("phone", optStrJ c.phone), ("siret", optStrJ c.siret)]

/-- Embeds `dataclasses.asdict` on `Party`. -/
def Party.asdict (p : Party) : JVal :=
  .obj [("name", .str p.name), ("address", optStrJ p.address), ("email", optStrJ p.email),
        ("phone", optStrJ p.phone), ("siret", optStrJ p.siret)]

/-- One entry of the `lines` array of `Document.to_dict`. -/
def LineItem.to_dict_entry (li : LineItem) : JVal :=
  .obj [("item_key", .str li.item_key), ("description", .str li.description),
        ("quantity", .num li.quantity), ("unit_price", .num li.unit_price),
        ("discount_pct", .num li.discount_pct), ("unit", .str li.unit),
        ("tax_pct", .num li.tax_pct), ("total_ht", .num li.total_ht)]

/-- Embeds `Document.to_dict` of src/invoice_generator/model.py. -/
def Document.to_dict (d : Document) : JVal :=
  .obj [("type", .str d.doc_type.value), ("number", optStrJ d.number),
        ("date", .str d.date_.isoformat), ("issuer", d.issuer.asdict),
        ("customer", d.customer.asdict),
        ("lines", .arr (d.lines.map LineItem.to_dict_entry)),
        ("subtotal_ht", .num d.subtotal_ht), ("total_tva", .num d.total_tva),
        ("net_to_pay", .num d.net_to_pay), ("subject", optStrJ d.subject),
        ("validity_end_date", match d.validity_end_date with
                              | some dt => .str dt.isoformat
                              | none => .null)]

/-- Ambient environment available to the program during an export call: the
current clock date. `export_json` reads no ambient state, which the
determinism theorem makes explicit by quantifying over it. -/
structure Env where
  today : Date

/-- Embeds `backend.export_json`: the text written to the file, namely
`doc.to_dict()` serialized as UTF-8 with `ensure_ascii=False, indent=2`. The
environment argument is the ambient clock the code could read but does not. -/
def export_json_text (_env : Env) (doc : Document) : String := serVal 0 doc.to_dict

/-- C6: `export_json` is deterministic — the bytes written depend only on the
Document value, with no embedded timestamp or other ambient data, so two calls
with the same Document produce byte-identical contents. -/
theorem export_json_deterministic :
    ∀ (doc : Document) (env1 env2 : Env),
      export_json_text env1 doc = export_json_text env2 doc :=
  fun _ _ _ => rfl

/-- Dict lookup on a JSON object field list (`d.get(k)`). -/
def jGet (kvs : List (String × JVal)) (k : String) : Option JVal := List.lookup k kvs

/-- Dict lookup defaulting to `None` when absent. -/
def getOrNull (kvs : List (String × JVal)) (k : String) : JVal := (jGet kvs k).getD .null

/-- Required keys of one imported line, per `parse_quote_json`. -/
def requiredLineKeys : List String := ["item_key", "description", "quantity", "unit_price"]

/-- Whether a JSON value is a dict (`isinstance(obj, dict)`). -/
def JVal.isDict : JVal → Bool
  | .obj _ => true
  | _ => false

/-- Whether an object holds all four required line keys. -/
def hasRequiredKeys (kvs : List (String × JVal)) : Bool :=
  requiredLineKeys.all (fun k => (jGet kvs k).isSome)

/-- Embeds the per-entry body of the `for obj in data.get('lines', [])` loop
of `parse_quote_json`: a non-dict entry and an entry missing a required key
are skipped, a structural pass coerces the five read fields, and any
coercion failure (the `except` branch) skips the entry. `unit` and `tax_pct`
are not read, so they take the `LineItem` defaults. -/
def parseLine? (v : JVal) : Option LineItem :=
  match v with
  | .obj kvs =>
    if hasRequiredKeys kvs then
      match pyFloat? (pyOr (getOrNull kvs "quantity") (.num 0)),
            pyFloat? (pyOr (getOrNull kvs "unit_price") (.num 0)),
            pyFloat? (pyOr (getOrNull kvs "discount_pct") (.num 0)) with
      | some qty, some up, some disc =>
          some { item_key := pyStr (pyOr (getOrNull kvs "item_key") (.str ""))
                 description := pyStr (pyOr (getOrNull kvs "description") (.str ""))
                 quantity := qty, unit_price := up, discount_pct := disc }
      | _, _, _ => none
    else none
  | _ => none

/-- The condition under which `parse_quote_json` skips one entry of `lines`:
not a dict, or some required key missing, or some numeric field failing
coercion. -/
def lineMalformed (v : JVal) : Bool :=
  match v with
  | .obj kvs =>
      !hasRequiredKeys kvs ||
        !((pyFloat? (pyOr (getOrNull kvs "quantity") (.num 0))).isSome &&
          (pyFloat? (pyOr (getOrNull kvs "unit_price") (.num 0))).isSome &&
          (pyFloat? (pyOr (getOrNull kvs "discount_pct") (.num 0))).isSome)
  | _ => true

/-- Embeds the iteration source `data.get('lines', []) or []`: an array
iterates over elements, a string over one-character strings, a dict over its
keys; numbers and booleans are not iterable and raise (`none`). -/
def linesIter? (kvs : List (String × JVal)) : Option (List JVal) :=
  match pyOr (getOrNull kvs "lines") (.arr []) with
  | .arr xs => some xs
  | .str s => some (s.toList.map (fun c => .str (String.singleton c)))
  | .obj fields => some (fields.map (fun kv => JVal.str kv.1))
  | _ => none

/-- Embeds the customer-name extraction of `parse_quote_json`:
`str(data['customer'].get('name') or '')` when `customer` is a dict, else
the default empty string. -/
def customerName (kvs : List (String × JVal)) : String :=
  match jGet kvs "customer" with
  | some (.obj ckvs) => pyStr (pyOr (getOrNull ckvs "name") (.str ""))
  | _ => ""

/-- Embeds `parse_quote_json` applied to already-parsed JSON data: `none`
models an exception escaping the call (non-dict top level, non-iterable
`lines` value). Individual entries are parsed by `parseLine?` and malformed
ones are dropped. -/
def parse_quote_data (data : JVal) : Option (String × List LineItem) :=
  match data with
  | .obj kvs => (linesIter? kvs).map (fun entries => (customerName kvs, entries.filterMap parseLine?))
  | _ => none

/-- Failure modes of the file-level `parse_quote_json` call. -/
inductive ParseFailure where
  | unreadableFile
  | unparseableContent
  | badTopLevel
deriving DecidableEq, Repr

/-- Embeds the file-level `parse_quote_json`: `none` models a missing or
unreadable file (`path.open` raises), `some none` a file whose content
`json.load` cannot parse; both are fatal. Successfully parsed content is
handled by `parse_quote_data`. -/
def parse_quote_json : Option (Option JVal) → Except ParseFailure (String × List LineItem)
  | none => .error .unreadableFile
  | some none => .error .unparseableContent
  | some (some data) =>
      match parse_quote_data data with
      | some r => .ok r
      | none => .error .badTopLevel

/-- Top-level record with a customer object and a lines array, the shape
produced by `export_json` restricted to the fields the importer reads. -/
def topRecord (c : JVal) (ls : List JVal) : JVal :=
  .obj [("customer", c), ("lines", .arr ls)]

theorem parseLine?_eq_none_iff (v : JVal) : parseLine? v = none ↔ lineMalformed v = true := by
  cases v <;> simp [parseLine?, lineMalformed]
  case obj kvs =>
    by_cases hk : hasRequiredKeys kvs
    · simp only [hk, if_true]
      rcases h1 : pyFloat? (pyOr (getOrNull kvs "quantity") (.num 0)) with _ | q1 <;>
        rcases h2 : pyFloat? (pyOr (getOrNull kvs "unit_price") (.num 0)) with _ | q2 <;>
        rcases h3 : pyFloat? (pyOr (getOrNull kvs "discount_pct") (.num 0)) with _ | q3 <;>
          simp [h1, h2, h3]
    · simp [hk]

theorem parse_lines_top (c : JVal) (ls : List JVal) :
    parse_quote_json (some (some (topRecord c ls))) =
      .ok (customerName [("customer", c), ("lines", .arr ls)], ls.filterMap parseLine?) := by
  cases ls <;>
    simp [parse_quote_json, parse_quote_data, topRecord, linesIter?, getOrNull, jGet,
      List.lookup, pyOr, JVal.truthy]

/-- C5: entries of `lines` are validated independently — a non-dict entry, an
entry missing one of the four required keys, or one whose numeric fields fail
coercion is skipped while every other entry is still returned — and the call
fails only for an unreadable file or unparseable top-level content, never for
a malformed individual line. -/
theorem parse_quote_lenient :
    (∀ v : JVal, parseLine? v = none ↔ lineMalformed v = true) ∧
    (∀ (c : JVal) (ls : List JVal),
      parse_quote_json (some (some (topRecord c ls))) =
        .ok (customerName [("customer", c), ("lines", .arr ls)], ls.filterMap parseLine?)) ∧
    (∀ (c : JVal) (pre post : List JVal) (bad : JVal), lineMalformed bad = true →
      parse_quote_json (some (some (topRecord c (pre ++ bad :: post)))) =
        parse_quote_json (some (some (topRecord c (pre ++ post))))) ∧
    parse_quote_json none = .error .unreadableFile ∧
    parse_quote_json (some none) = .error .unparseableContent := by
  refine ⟨parseLine?_eq_none_iff, parse_lines_top, ?_, rfl, rfl⟩
  intro c pre post bad hbad
  have hnone : parseLine? bad = none := (parseLine?_eq_none_iff bad).mpr hbad
  rw [parse_lines_top, parse_lines_top]
  simp [List.filterMap_append, hnone, customerName, jGet, List.lookup]

/-- One well-formed line entry, as in the repository test
`test_parse_quote_malformed_line_is_ignored`. -/
def goodEntry : JVal :=
  .obj [("item_key", .str "ok"), ("description", .str "OK"),
        ("quantity", .num 1), ("unit_price", .num 5)]

/-- An entry missing every required key. -/
def badEntry : JVal := .obj [("bad", .str "line")]

theorem parse_quote_lenient_witness :
    parse_quote_json (some (some (topRecord (JVal.obj [("name", JVal.str "Bar")])
        ([goodEntry] ++ badEntry :: [])))) =
      parse_quote_json (some (some (topRecord (JVal.obj [("name", JVal.str "Bar")])
        ([goodEntry] ++ [])))) :=
  parse_quote_lenient.2.2.1 (JVal.obj [("name", JVal.str "Bar")]) [goodEntry] [] badEntry rfl

/-- The document of repository test `test_io_parse_extended_fields`: one line
with unit `h` and tax 20%. -/
def importDoc : Document :=
  { doc_type := .quote
    issuer := issuer0
    customer := { name := "ACME" }
    lines := [{ item_key := "svc", description := "Service", quantity := 3, unit_price := 80,
                discount_pct := 10, unit := "h", tax_pct := 20 }]
    date_ := ⟨2025, 1, 1⟩ }

/-- C3 (code bug): exporting `importDoc` and re-importing it loses the line
`unit` and `tax_pct` — `parse_quote_json` never reads those keys and returns
the `LineItem` defaults `""` and `0` where the document had `"h"` and `20`,
contradicting the repository test `test_io_parse_extended_fields`, which
asserts they round-trip. Item key, description, quantity, unit price and
discount do round-trip. -/
theorem roundtrip_drops_unit_and_tax :
    parse_quote_data importDoc.to_dict =
      some ("ACME", [{ item_key := "svc", description := "Service", quantity := 3,
                       unit_price := 80, discount_pct := 10, unit := "", tax_pct := 0 }]) ∧
    importDoc.lines.map LineItem.unit = ["h"] ∧
    importDoc.lines.map LineItem.tax_pct = [20] ∧
    ("" : String) ≠ "h" ∧ (0 : ℚ) ≠ 20 := by
  refine ⟨?_, rfl, rfl, by decide, by norm_num⟩
  rfl

/-- Python `min(a, b)` on two numbers. -/
def pymin (a b : ℚ) : ℚ := if b < a then b else a

/-- One reportlab point per millimetre: `72 / 25.4`. -/
def mmUnit : ℚ := 72 / (254/10)

/-- A4 page height in points (`297 * mm`). -/
def pageHeight : ℚ := 297 * mmUnit

/-- Top margin of `export_pdf`. -/
def topMargin : ℚ := 50

/-- Bottom margin of `export_pdf`. -/
def bottomMargin : ℚ := 40

/-- Drawing events emitted by `export_pdf`, in emission order. A `row` event
carries the text drawn in the description column. -/
inductive Ev where
  | header (title : String)
  | parties
  | realization
  | tableHeader
  | row (desc : String)
  | totals
  | notesTitle
  | noteLine (s : String)
  | footer (n : ℕ)
  | newPage
deriving DecidableEq, Repr

/-- Embeds the title dispatch of `_draw_header`:
`'DEVIS' if str(doc.doc_type) == 'DocumentType.QUOTE' else 'FACTURE'`. -/
def headerTitle (dt : DocumentType) : String :=
  if dt.pyStr == "DocumentType.QUOTE" then "DEVIS" else "FACTURE"

/-- Embeds `_draw_header`: title and date lower the cursor by 20 and 18
points; logo drawing (best-effort, failures swallowed) leaves it unchanged. -/
def draw_header (doc : Document) (y_start : ℚ) : List Ev × ℚ :=
  ([.header (headerTitle doc.doc_type)], y_start - 20 - 18)

/-- Python truthiness of an optional string. -/
def truthyStrOpt : Option String → Bool
  | some s => !(s == "")
  | none => false

/-- Labelled optional contact line (`f'Email: {x}' if x else ''`). -/
def optLabel (label : String) (o : Option String) : String :=
  match o with
  | some s => if s == "" then "" else label ++ s
  | none => ""

/-- The candidate issuer lines of `_draw_parties_frames`. -/
def issuerLines (c : Company) : List String :=
  [c.name, c.address.getD "", optLabel "Email: " c.email,
   optLabel "Téléphone: " c.phone, optLabel "SIRET: " c.siret]

/-- The candidate customer lines of `_draw_parties_frames`. -/
def partyLines (p : Party) : List String :=
  [p.name, p.address.getD "", optLabel "Email: " p.email,
   optLabel "Téléphone: " p.phone, optLabel "SIRET: " p.siret]

/-- Number of nonempty lines, each of which lowers the cursor by 12 points. -/
def countNonempty (xs : List String) : ℕ := (xs.filter (fun s => !(s == ""))).length

/-- Embeds `_draw_parties_frames`: both frames start at the same height; the
returned cursor is the lower of the two columns minus a 10-point gap. -/
def draw_parties_frames (doc : Document) (y : ℚ) : List Ev × ℚ :=
  let ci := countNonempty (issuerLines doc.issuer)
  let ya := y - 12 - 12 * ci
  let ycStart := ya + 12 * (ci + 1)
  let yb := ycStart - 12 - 12 * (countNonempty (partyLines doc.customer))
  ([.parties], pymin ya yb - 10)

/-- Embeds `_draw_realization_block`: nothing when neither subject nor
validity date is set; otherwise label, the populated rows, a 6-point gap, the
rule and an 8-point gap. -/
def draw_realization_block (doc : Document) (y : ℚ) : List Ev × ℚ :=
  if !truthyStrOpt doc.subject && doc.validity_end_date.isNone then ([], y)
  else
    let y1 := y - 12
    let y2 := if truthyStrOpt doc.subject then y1 - 12 else y1
    let y3 := if doc.validity_end_date.isSome then y2 - 12 else y2
    ([.realization], y3 - 6 - 8)

/-- Embeds `_draw_table_header`: column captions (12 points) then the rule
and an 8-point gap. -/
def draw_table_header (y : ℚ) : List Ev × ℚ := ([.tableHeader], y - 12 - 8)

/-- Python `str.strip()`: drop leading and trailing whitespace. -/
def pyStrip (s : String) : String :=
  String.mk (((s.toList.dropWhile Char.isWhitespace).reverse.dropWhile Char.isWhitespace).reverse)

/-- Embeds the description-cell fallback of the row loop of `export_pdf`:
`desc = (line.description or '').strip() or line.item_key`. -/
def renderedDesc (li : LineItem) : String :=
  let d := if li.description == "" then "" else li.description
  let d := pyStrip d
  if d == "" then li.item_key else d

/-- Embeds the row loop of `export_pdf`: before each row, if the cursor is
within 60 points of the bottom margin, the current page's footer is drawn,
a new page starts and the header block plus the table header are re-drawn;
each row lowers the cursor by 14 points. Returns the events, the final
cursor and the final page number. -/
def emitRows (doc : Document) : List LineItem → ℚ → ℕ → List Ev × ℚ × ℕ
  | [], y, p => ([], y, p)
  | li :: rest, y, p =>
    if y < bottomMargin + 60 then
      let h := draw_header doc (pageHeight - topMargin)
      let th := draw_table_header h.2
      let r := emitRows doc rest (th.2 - 14) (p + 1)
      (Ev.footer p :: Ev.newPage :: (h.1 ++ th.1 ++ Ev.row (renderedDesc li) :: r.1), r.2)
    else
      let r := emitRows doc rest (y - 14) p
      (Ev.row (renderedDesc li) :: r.1, r.2)

/-- Embeds the notes loop of `export_pdf`: before each wrapped line, if the
cursor is within 20 points of the bottom margin, the footer is drawn, a new
page starts and only the header block is re-drawn (no table header); each
line lowers the cursor by 12 points. -/
def emitNotes (doc : Document) : List String → ℚ → ℕ → List Ev × ℚ × ℕ
  | [], y, p => ([], y, p)
  | ln :: rest, y, p =>
    if y < bottomMargin + 20 then
      let h := draw_header doc (pageHeight - topMargin)
      let r := emitNotes doc rest (h.2 - 12) (p + 1)
      (Ev.footer p :: Ev.newPage :: (h.1 ++ Ev.noteLine ln :: r.1), r.2)
    else
      let r := emitNotes doc rest (y - 12) p
      (Ev.noteLine ln :: r.1, r.2)

/-- Body of the `export_pdf` event stream and the final page number; `wrap`
is the notes shaping pipeline (`splitlines` with the `['']` default, then
`textwrap.fill` at 100 characters, then `splitlines` per paragraph), over
which all pagination theorems quantify. The totals block (rule, three totals
lines, 68 points) has no page-break check, as in the source. -/
def traceBody (wrap : String → List String) (doc : Document) : List Ev × ℕ :=
  let h := draw_header doc (pageHeight - topMargin)
  let pf := draw_parties_frames doc h.2
  let rb := draw_realization_block doc pf.2
  let th := draw_table_header rb.2
  let rows := emitRows doc doc.lines th.2 1
  let yTot := rows.2.1 - 68
  let notes :=
    if truthyStrOpt doc.notes then
      let ns := emitNotes doc (wrap (doc.notes.getD "")) (yTot - 12) rows.2.2
      (Ev.notesTitle :: ns.1, ns.2.2)
    else ([], rows.2.2)
  (h.1 ++ pf.1 ++ rb.1 ++ th.1 ++ rows.1 ++ Ev.totals :: notes.1, notes.2)

/-- Embeds `export_pdf`: the stream of drawing events, ending with the final
page's footer drawn once after all content. -/
def export_pdf_trace (wrap : String → List String) (doc : Document) : List Ev :=
  (traceBody wrap doc).1 ++ [Ev.footer (traceBody wrap doc).2]

/-- Events other than footers and page breaks: the content of a page. -/
def contentEv : Ev → Bool
  | .footer _ => false
  | .newPage => false
  | _ => true

/-- Shape of the event stream right after a page break: either the header
block then the table header then the pending row (break in the row loop), or
the header block directly followed by the pending notes line (break in the
notes loop, no table header). -/
inductive ReentryShape : List Ev → Prop
  | rows (t d : String) (rest : List Ev) :
      ReentryShape (.header t :: .tableHeader :: .row d :: rest)
  | notes (t s : String) (rest : List Ev) :
      ReentryShape (.header t :: .noteLine s :: rest)

/-- `Chunks p q evs`: starting on page `p`, `evs` consists of content events
interleaved with well-formed page breaks — each break is `footer p` for the
page being abandoned immediately followed by `newPage` and a re-entry of the
required shape — ending on page `q`. -/
inductive Chunks : ℕ → ℕ → List Ev → Prop
  | nil (p : ℕ) : Chunks p p []
  | content (e : Ev) (p q : ℕ) (evs : List Ev) :
      contentEv e = true → Chunks p q evs → Chunks p q (e :: evs)
  | brk (p q : ℕ) (evs : List Ev) :
      ReentryShape evs → Chunks (p + 1) q evs → Chunks p q (.footer p :: .newPage :: evs)

/-- `PagedFrom n t`: the event stream `t` is a well-formed sequence of pages
numbered consecutively from `n` — every page consists of content events and
ends with exactly one footer carrying its page number; every page except the
last is followed by a `newPage` whose continuation re-draws the header (with
the table header exactly when a row follows); the final page's footer is the
last event of the stream. -/
inductive PagedFrom : ℕ → List Ev → Prop
  | lastPage (n : ℕ) (s : List Ev) :
      (∀ e ∈ s, contentEv e = true) → PagedFrom n (s ++ [.footer n])
  | breakPage (n : ℕ) (s rest : List Ev) :
      (∀ e ∈ s, contentEv e = true) → ReentryShape rest → PagedFrom (n + 1) rest →
      PagedFrom n (s ++ .footer n :: .newPage :: rest)

theorem reentryShape_append {l : List Ev} (h : ReentryShape l) (l2 : List Ev) :
    ReentryShape (l ++ l2) := by
  cases h with
  | rows t d rest => exact ReentryShape.rows t d (rest ++ l2)
  | notes t s rest => exact ReentryShape.notes t s (rest ++ l2)

theorem chunks_append {p q r : ℕ} {l1 l2 : List Ev}
    (h1 : Chunks p q l1) (h2 : Chunks q r l2) : Chunks p r (l1 ++ l2) := by
  induction h1 with
  | nil => simpa using h2
  | content e _ _ evs he _ ih => exact Chunks.content e _ _ _ he (ih h2)
  | brk _ _ evs hs _ ih => exact Chunks.brk _ _ _ (reentryShape_append hs l2) (ih h2)

theorem chunks_single {p : ℕ} (e : Ev) (he : contentEv e = true) : Chunks p p [e] :=
  Chunks.content e p p [] he (Chunks.nil p)

theorem pagedFrom_cons {p : ℕ} {t : List Ev} (e : Ev) (he : contentEv e = true)
    (h : PagedFrom p t) : PagedFrom p (e :: t) := by
  cases h with
  | lastPage _ s hs =>
      exact PagedFrom.lastPage p (e :: s) (by
        intro x hx
        rcases List.mem_cons.mp hx with h | h
        · simpa [h] using he
        · exact hs x h)
  | breakPage _ s rest hs hr hp =>
      exact PagedFrom.breakPage p (e :: s) rest (by
        intro x hx
        rcases List.mem_cons.mp hx with h | h
        · simpa [h] using he
        · exact hs x h) hr hp

theorem chunks_to_paged {p q : ℕ} {l : List Ev} (h : Chunks p q l) :
    PagedFrom p (l ++ [.footer q]) := by
  induction h with
  | nil => simpa using PagedFrom.lastPage _ [] (by simp)
  | content e _ _ evs he _ ih => exact pagedFrom_cons e he ih
  | brk _ _ evs hs _ ih =>
      simpa using PagedFrom.breakPage _ [] (evs ++ [.footer _]) (by simp)
        (reentryShape_append hs _) ih

theorem emitRows_chunks (doc : Document) (rows : List LineItem) (y : ℚ) (p : ℕ) :
    Chunks p (emitRows doc rows y p).2.2 (emitRows doc rows y p).1 := by
  induction rows generalizing y p with
  | nil => exact Chunks.nil p
  | cons li rest ih =>
      by_cases hy : y < bottomMargin + 60
      · simp only [emitRows, if_pos hy, draw_header, draw_table_header]
        exact Chunks.brk _ _ _ (ReentryShape.rows _ _ _)
          (Chunks.content _ _ _ _ rfl (Chunks.content _ _ _ _ rfl
            (Chunks.content _ _ _ _ rfl (ih _ _))))
      · simp only [emitRows, if_neg hy]
        exact Chunks.content _ _ _ _ rfl (ih _ _)

theorem emitNotes_chunks (doc : Document) (lns : List String) (y : ℚ) (p : ℕ) :
    Chunks p (emitNotes doc lns y p).2.2 (emitNotes doc lns y p).1 := by
  induction lns generalizing y p with
  | nil => exact Chunks.nil p
  | cons ln rest ih =>
      by_cases hy : y < bottomMargin + 20
      · simp only [emitNotes, if_pos hy, draw_header]
        exact Chunks.brk _ _ _ (ReentryShape.notes _ _ _)
          (Chunks.content _ _ _ _ rfl (Chunks.content _ _ _ _ rfl (ih _ _)))
      · simp only [emitNotes, if_neg hy]
        exact Chunks.content _ _ _ _ rfl (ih _ _)

theorem realization_chunks (doc : Document) (y : ℚ) (p : ℕ) :
    Chunks p p (draw_realization_block doc y).1 := by
  unfold draw_realization_block
  split
  · exact Chunks.nil p
  · exact chunks_single _ rfl

theorem traceBody_chunks (wrap : String → List String) (doc : Document) :
    Chunks 1 (traceBody wrap doc).2 (traceBody wrap doc).1 := by
  unfold traceBody
  simp only [draw_header, draw_parties_frames, draw_table_header, List.append_assoc,
    List.nil_append, List.cons_append, List.singleton_append]
  refine Chunks.content _ _ _ _ rfl ?_
  refine Chunks.content _ _ _ _ rfl ?_
  refine chunks_append (realization_chunks doc _ _) ?_
  refine Chunks.content _ _ _ _ rfl ?_
  refine chunks_append (emitRows_chunks doc doc.lines _ 1) ?_
  refine Chunks.content _ _ _ _ rfl ?_
  cases hn : truthyStrOpt doc.notes
  · simp [hn]
    exact Chunks.nil _
  · simp [hn]
    exact Chunks.content _ _ _ _ rfl (emitNotes_chunks doc _ _ _)

/-- C4: every page break first draws the abandoned page's footer with its
page number (numbers consecutive from 1), re-draws the header block on the
new page — with the table header exactly for breaks in the row loop, without
it for breaks in the notes loop — every page ends with exactly one footer,
and the final footer is drawn once at the very end; breaks trigger exactly
when the cursor drops below the 60-point (rows) or 20-point (notes) guard
band above the bottom margin. -/
theorem export_pdf_pagination :
    (∀ (wrap : String → List String) (doc : Document),
      PagedFrom 1 (export_pdf_trace wrap doc)) ∧
    (∀ (doc : Document) (li : LineItem) (rest : List LineItem) (y : ℚ) (p : ℕ),
      y < bottomMargin + 60 →
      (emitRows doc (li :: rest) y p).1.take 5 =
        [.footer p, .newPage, .header (headerTitle doc.doc_type), .tableHeader,
         .row (renderedDesc li)]) ∧
    (∀ (doc : Document) (li : LineItem) (rest : List LineItem) (y : ℚ) (p : ℕ),
      ¬ y < bottomMargin + 60 →
      (emitRows doc (li :: rest) y p).1.head? = some (.row (renderedDesc li))) ∧
    (∀ (doc : Document) (ln : String) (rest : List String) (y : ℚ) (p : ℕ),
      y < bottomMargin + 20 →
      (emitNotes doc (ln :: rest) y p).1.take 4 =
        [.footer p, .newPage, .header (headerTitle doc.doc_type), .noteLine ln]) ∧
    (∀ (doc : Document) (ln : String) (rest : List String) (y : ℚ) (p : ℕ),
      ¬ y < bottomMargin + 20 →
      (emitNotes doc (ln :: rest) y p).1.head? = some (.noteLine ln)) := by
  refine ⟨fun wrap doc => ?_, ?_, ?_, ?_, ?_⟩
  · exact chunks_to_paged (traceBody_chunks wrap doc)
  · intro doc li rest y p hy
    simp [emitRows, if_pos hy, draw_header, draw_table_header]
  · intro doc li rest y p hy
    simp [emitRows, if_neg hy]
  · intro doc ln rest y p hy
    simp [emitNotes, if_pos hy, draw_header]
  · intro doc ln rest y p hy
    simp [emitNotes, if_neg hy]

theorem export_pdf_pagination_witness :
    ((50 : ℚ) < bottomMargin + 60 ∧
      (emitRows scenarioDoc [lineNegDisc] 50 3).1.take 5 =
        [.footer 3, .newPage, .header (headerTitle scenarioDoc.doc_type), .tableHeader,
         .row (renderedDesc lineNegDisc)]) ∧
    (¬ (500 : ℚ) < bottomMargin + 60 ∧
      (emitRows scenarioDoc [lineNegDisc] 500 1).1.head? =
        some (.row (renderedDesc lineNegDisc))) ∧
    ((50 : ℚ) < bottomMargin + 20 ∧
      (emitNotes scenarioDoc ["n"] 50 2).1.take 4 =
        [.footer 2, .newPage, .header (headerTitle scenarioDoc.doc_type), .noteLine "n"]) ∧
    (¬ (500 : ℚ) < bottomMargin + 20 ∧
      (emitNotes scenarioDoc ["n"] 500 1).1.head? = some (.noteLine "n")) := by
  have h60 : (50 : ℚ) < bottomMargin + 60 := by norm_num [bottomMargin]
  have h60n : ¬ (500 : ℚ) < bottomMargin + 60 := by norm_num [bottomMargin]
  have h20 : (50 : ℚ) < bottomMargin + 20 := by norm_num [bottomMargin]
  have h20n : ¬ (500 : ℚ) < bottomMargin + 20 := by norm_num [bottomMargin]
  exact ⟨⟨h60, export_pdf_pagination.2.1 scenarioDoc lineNegDisc [] 50 3 h60⟩,
         ⟨h60n, export_pdf_pagination.2.2.1 scenarioDoc lineNegDisc [] 500 1 h60n⟩,
         ⟨h20, export_pdf_pagination.2.2.2.1 scenarioDoc "n" [] 50 2 h20⟩,
         ⟨h20n, export_pdf_pagination.2.2.2.2 scenarioDoc "n" [] 500 1 h20n⟩⟩

/-- C9: the title drawn in the page header is always `FACTURE`, also for a
quote: `str()` of the `StrEnum` member is its value (`quote`/`invoice`),
which never equals the compared literal `DocumentType.QUOTE`, so the `DEVIS`
branch is unreachable. -/
theorem header_title_always_facture :
    (∀ dt : DocumentType, headerTitle dt = "FACTURE") ∧
    (∀ dt : DocumentType, dt.pyStr ≠ "DocumentType.QUOTE") ∧
    DocumentType.quote.pyStr = "quote" ∧
    DocumentType.invoice.pyStr = "invoice" := by
  refine ⟨fun dt => ?_, fun dt => ?_, rfl, rfl⟩ <;> cases dt <;> decide

/-- The description text carried by a row event. -/
def rowDesc? : Ev → Option String
  | .row d => some d
  | _ => none

theorem emitRows_rowDescs (doc : Document) (rows : List LineItem) (y : ℚ) (p : ℕ) :
    (emitRows doc rows y p).1.filterMap rowDesc? = rows.map renderedDesc := by
  induction rows generalizing y p with
  | nil => rfl
  | cons li rest ih =>
      by_cases hy : y < bottomMargin + 60
      · simp [emitRows, if_pos hy, draw_header, draw_table_header, rowDesc?, ih]
      · simp [emitRows, if_neg hy, rowDesc?, ih]

theorem emitNotes_rowDescs (doc : Document) (lns : List String) (y : ℚ) (p : ℕ) :
    (emitNotes doc lns y p).1.filterMap rowDesc? = [] := by
  induction lns generalizing y p with
  | nil => rfl
  | cons ln rest ih =>
      by_cases hy : y < bottomMargin + 20
      · simp [emitNotes, if_pos hy, draw_header, rowDesc?, ih]
      · simp [emitNotes, if_neg hy, rowDesc?, ih]

/-- C10: the description column of each PDF table row shows the stripped
description, or the item key when the description is empty or whitespace
only; the rows drawn are exactly the document's lines in order. -/
theorem row_description_fallback :
    (∀ (wrap : String → List String) (doc : Document),
      (export_pdf_trace wrap doc).filterMap rowDesc? = doc.lines.map renderedDesc) ∧
    (∀ li : LineItem, pyStrip li.description = "" → renderedDesc li = li.item_key) ∧
    (∀ li : LineItem, pyStrip li.description ≠ "" →
      renderedDesc li = pyStrip li.description) := by
  have hstrip : pyStrip "" = "" := rfl
  refine ⟨fun wrap doc => ?_, fun li h => ?_, fun li h => ?_⟩
  · unfold export_pdf_trace traceBody
    dsimp only
    by_cases hn : truthyStrOpt doc.notes <;>
      simp [hn, draw_header, draw_parties_frames, draw_realization_block, draw_table_header,
        List.filterMap_append, emitRows_rowDescs, emitNotes_rowDescs, rowDesc?] <;>
      split_ifs <;> simp [rowDesc?]
  · unfold renderedDesc
    by_cases hd : li.description == ""
    · simp [hd, hstrip]
    · simp [hd, h]
  · unfold renderedDesc
    by_cases hd : li.description == ""
    · exfalso
      apply h
      rw [show li.description = "" from eq_of_beq hd]
      rfl
    · simp [hd, h]

theorem row_description_fallback_witness :
    (renderedDesc { item_key := "k1", description := "  ", quantity := 1, unit_price := 1 }
        = "k1") ∧
    (renderedDesc { item_key := "k2", description := " x ", quantity := 1, unit_price := 1 }
        = pyStrip " x ") :=
  ⟨row_description_fallback.2.1
      { item_key := "k1", description := "  ", quantity := 1, unit_price := 1 } (by decide),
    row_description_fallback.2.2
      { item_key := "k2", description := " x ", quantity := 1, unit_price := 1 } (by decide)⟩

/-- Truncation toward zero of a rational: Python `int()` on a float. -/
def ratTrunc (q : ℚ) : ℤ := q.num.tdiv q.den

/-- Python `int()` of a string: optional sign and decimal digits only
(surrounding whitespace stripped). -/
def pyIntOfString (s : String) : Option ℤ :=
  let afterSign : Bool × List Char :=
    match (pyStrip s).toList with
    | '+' :: t => (false, t)
    | '-' :: t => (true, t)
    | t => (false, t)
  let t := afterSign.2
  if t.isEmpty || !t.all Char.isDigit then none
  else some (if afterSign.1 then -(digitsVal t : ℤ) else (digitsVal t : ℤ))

/-- Python `int()` of a JSON value: numbers truncate toward zero, booleans
coerce, digit strings parse, everything else raises (`none`). -/
def pyInt? : JVal → Option ℤ
  | .num q => some (ratTrunc q)
  | .bool b => some (if b then 1 else 0)
  | .str s => pyIntOfString s
  | _ => none

/-- The `counters` entry of `DEFAULT_CONFIG`. -/
def defaultCounters : JVal := .obj [("quote", .num 0), ("invoice", .num 0)]

/-- Embeds `DEFAULT_CONFIG` of src/invoice_generator/config.py. -/
def DEFAULT_CONFIG : JVal :=
  .obj [("company", .obj [("name", .str "Ma Société"), ("logo_path", .null),
          ("logo_max_width", .num 60), ("logo_max_height", .null),
          ("logo_margin_right", .num 20), ("address", .null), ("email", .null),
          ("phone", .null), ("siret", .null)]),
        ("counters", defaultCounters),
        ("items", .arr [.obj [("key", .str "service"), ("label", .str "Service"),
                              ("unit_price", .num 80)],
                        .obj [("key", .str "product"), ("label", .str "Produit"),
                              ("unit_price", .num 50)]])]

/-- Embeds `ConfigManager.load`: the parsed file contents when the file
exists, `DEFAULT_CONFIG` otherwise. The store state is the persisted JSON
document (`none` = file absent). -/
def config_load (st : Option JVal) : JVal := st.getD DEFAULT_CONFIG

/-- Python dict assignment on an ordered field list: replaces the value in
place when the key exists, appends the pair otherwise. -/
def setKey : List (String × JVal) → String → JVal → List (String × JVal)
  | [], k, v => [(k, v)]
  | (k', v') :: t, k, v => if k == k' then (k, v) :: t else (k', v') :: setKey t k v

/-- Zero-padded formatting of an integer: Python `f'{num:0{width}d}'`. -/
def intPad (width : ℕ) (n : ℤ) : String :=
  if n < 0 then "-" ++ natPadZeros (width - 1) n.natAbs else natPadZeros width n.natAbs

/-- Embeds `ConfigManager.next_number`: load the config (defaults on a fresh
store), `setdefault` the counters dict, increment the counter of `doc_type`
(missing counters start at 0), persist, and return the prefixed zero-padded
number together with the new store state. `none` models the call raising
(non-dict config, non-dict counters value, or a counter value `int()`
rejects). -/
def next_number (st : Option JVal) (doc_type pfx : String) (width : ℕ) :
    Option (String × Option JVal) :=
  match config_load st with
  | .obj data =>
    match (jGet data "counters").getD defaultCounters with
    | .obj ckvs =>
      match pyInt? ((jGet ckvs doc_type).getD (.num 0)) with
      | some n0 =>
        let n := n0 + 1
        let ckvs2 := setKey ckvs doc_type (.num n)
        let data2 := setKey data "counters" (.obj ckvs2)
        some (pfx ++ intPad width n, some (.obj data2))
      | none => none
    | _ => none
  | _ => none

theorem jGet_setKey_self (l : List (String × JVal)) (k : String) (v : JVal) :
    jGet (setKey l k v) k = some v := by
  induction l with
  | nil => simp [setKey, jGet, List.lookup]
  | cons hd t ih =>
      obtain ⟨k', v'⟩ := hd
      by_cases h : k == k'
      · simp [setKey, h, jGet, List.lookup]
      · simp only [setKey, h, if_false, Bool.false_eq_true]
        simpa [jGet, List.lookup, h] using ih

theorem jGet_setKey_ne (l : List (String × JVal)) (k k2 : String) (v : JVal)
    (h : k2 ≠ k) : jGet (setKey l k v) k2 = jGet l k2 := by
  have hb : (k2 == k) = false := by
    simpa using h
  induction l with
  | nil => simp [setKey, jGet, List.lookup, hb]
  | cons hd t ih =>
      obtain ⟨k', v'⟩ := hd
      by_cases hk : k == k'
      · have : k' = k := (eq_of_beq hk).symm
        subst this
        simp [setKey, hk, jGet, List.lookup, hb]
      · simp only [setKey, hk, if_false, Bool.false_eq_true]
        by_cases h2 : k2 == k'
        · simp [jGet, List.lookup, h2]
        · simpa [jGet, List.lookup, h2] using ih

/-- C7: on a fresh store the quote counter yields `D-0001` then `D-0002`, the
invoice counter yields `F-00001`, and counters of different document types
are independent — consuming a number for one type never changes the number
the other type will produce next. -/
theorem next_number_spec :
    (next_number none "quote" "D-" 4).map Prod.fst = some "D-0001" ∧
    ((next_number none "quote" "D-" 4).bind
        (fun r => next_number r.2 "quote" "D-" 4)).map Prod.fst = some "D-0002" ∧
    (next_number none "invoice" "F-" 5).map Prod.fst = some "F-00001" ∧
    (∀ (st : Option JVal) (t1 t2 p1 p2 : String) (w1 w2 : ℕ) (r1 : String × Option JVal),
      t1 ≠ t2 → next_number st t1 p1 w1 = some r1 →
      (next_number r1.2 t2 p2 w2).map Prod.fst = (next_number st t2 p2 w2).map Prod.fst) := by
  refine ⟨by decide, by decide, by decide, ?_⟩
  intro st t1 t2 p1 p2 w1 w2 r1 hne h1
  rcases hld : config_load st with _ | b | q | s | elems | data <;>
    rw [next_number, hld] at h1 <;> try simpa using h1
  dsimp only at h1
  rcases hC : (jGet data "counters").getD defaultCounters with _ | b | q | s | elems | ckvs <;>
    rw [hC] at h1 <;> try simpa using h1
  dsimp only at h1
  rcases hI : pyInt? ((jGet ckvs t1).getD (.num 0)) with _ | n0 <;> rw [hI] at h1
  · simpa using h1
  · dsimp only at h1
    have hr : r1.2 = some (.obj (setKey data "counters"
        (.obj (setKey ckvs t1 (.num ((n0 + 1 : ℤ) : ℚ)))))) := by
      rw [← Option.some_inj.mp h1]
    rw [next_number, hr]
    rw [next_number, hld]
    simp only [config_load, Option.getD_some]
    try dsimp only
    rw [hC]
    try dsimp only
    rw [jGet_setKey_self]
    simp only [Option.getD_some]
    try dsimp only
    rw [jGet_setKey_ne _ _ _ _ (Ne.symm hne)]
    cases hI2 : pyInt? ((jGet ckvs t2).getD (.num 0)) <;> rfl

theorem next_number_spec_witness :
    (next_number (some (.obj [("counters", .obj [("quote", .num 3), ("invoice", .num 7)])]))
        "invoice" "F-" 5).map Prod.fst =
      (next_number (some (.obj [("counters", .obj [("quote", .num 2), ("invoice", .num 7)])]))
        "invoice" "F-" 5).map Prod.fst := by
  have h := next_number_spec.2.2.2
    (some (.obj [("counters", .obj [("quote", .num 2), ("invoice", .num 7)])]))
    "quote" "invoice" "D-" "F-" 4 5
    ("D-0003", some (.obj [("counters", .obj [("quote", .num 3), ("invoice", .num 7)])]))
    (by decide) rfl
  simpa using h

end InvoiceGen
